import Mathlib

/-!
Verification development for the asyncio XBee frame driver
(`xbee/asyncio/base.py`).

The embedding models the `XBeeBase` asyncio protocol object: its mutable
fields `_frame`, `_data`, `_future`, `_queue`, the configuration flags
`_callback` (a push callback is registered) and `_escaped`, and its
methods `halt`, `wait_read_frame` and `data_received`.  Bytes are `Nat`
values.  The helper class `APIFrame` (`xbee/frame.py`) and the splitter
`_split_response` belong to the repository but their source files are not
included here, so they are modelled from the spec (sections 3, 4.1 and 6);
every such definition is marked `Modelled from the spec:`.
-/

namespace XBee

set_option maxRecDepth 10000
set_option maxHeartbeats 1000000

/-- Assembler state of one in-progress frame.  Modelled from the spec:
the `APIFrame` class of `xbee/frame.py` is not included; spec section 3
("Assembly State") lists an accumulated byte buffer and an escape-pending
flag ("true immediately after an escape marker byte, meaning the next raw
byte must be unescaped before use"), and the frame carries the
escaped-mode flag (spec section 4.2 step 2: an assembler is instantiated
"carrying the escaped-mode flag").  The bytes-remaining counter and the
declared total length are derived from `raw_data` (see
`APIFrame.remainingBytes` and `declLen`). -/
structure APIFrame where
  escaped : Bool
  raw_data : List Nat
  escapeNext : Bool
deriving DecidableEq

/-- Fresh assembler, as created by `data_received` on finding a start
marker (`APIFrame(escaped=self._escaped)`). -/
def APIFrame.init (esc : Bool) : APIFrame := ⟨esc, [], false⟩

/-- Modelled from the spec: the checksum of a payload is "0xFF minus the
low byte of the sum of all payload bytes (mod 256)" (spec sections 4.1
and 6). -/
def checksum (payload : List Nat) : Nat := 0xFF - payload.sum % 256

/-- Declared total payload length: the 2-byte big-endian length field
occupies offsets 1 and 2 of the accumulated frame bytes (spec sections
4.1 and 6: `START(1) | LENGTH(2, big-endian) | PAYLOAD | CHECKSUM(1)`). -/
def declLen (fs : APIFrame) : Nat :=
  fs.raw_data.getD 1 0 * 256 + fs.raw_data.getD 2 0

/-- Modelled from the spec: `remaining_bytes()` is the "count of wire
bytes still needed to complete the current frame" (spec section 4.1).
Until the 3 header bytes (start marker plus length field) are in, three
more bytes are needed at least; afterwards the total is start + length
field + declared payload + checksum = 4 + declared length. -/
def APIFrame.remainingBytes (fs : APIFrame) : Nat :=
  if fs.raw_data.length < 3 then 3 - fs.raw_data.length
  else 4 + declLen fs - fs.raw_data.length

/-- Modelled from the spec: `fill(byte)` feeds one byte (spec section
4.1).  Escape handling follows spec section 3: when the escape-pending
flag is set the incoming raw byte is unescaped (XOR 0x20) before use, and
an escape marker byte (0x7D) sets the flag instead of being stored (spec
sections 4.2 step 3 and 6: a reserved value travels as escape marker plus
value XOR 0x20). -/
def APIFrame.fill (fs : APIFrame) (b : Nat) : APIFrame :=
  if fs.escaped = true ∧ fs.escapeNext = true then
    { fs with raw_data := fs.raw_data ++ [b ^^^ 0x20], escapeNext := false }
  else if fs.escaped = true ∧ b = 0x7D then
    { fs with escapeNext := true }
  else
    { fs with raw_data := fs.raw_data ++ [b] }

/-- Modelled from the spec: `parse()` finalizes the frame, validating the
checksum; `none` models the `ChecksumError` / `ValueError` failure (spec
section 4.1).  The payload is the declared-length slice after the 3
header bytes and the checksum is the trailing byte. -/
def APIFrame.parse (fs : APIFrame) : Option (List Nat) :=
  if fs.raw_data.length < 3 then none
  else
    if fs.raw_data.getLastD 0 = checksum ((fs.raw_data.drop 3).take (declLen fs)) then
      some ((fs.raw_data.drop 3).take (declLen fs))
    else none

/-- Result of the split step applied to a validated payload: a
message-type discriminant plus the remaining bytes. -/
structure FrameInfo where
  id : Nat
  body : List Nat
deriving DecidableEq

/-- Modelled from the spec: `_split_response` (spec section 6) "extracts
a message-type discriminant (first body byte) and the remaining bytes as
structured content"; its source is not included.  An empty payload has no
first byte, so the split fails there (a `ValueError` in the driver). -/
def splitResponse : List Nat → Option FrameInfo
  | [] => none
  | b :: rest => some ⟨b, rest⟩

/-- State of one `XBeeBase` driver object.  `callback` and `escaped` are
the construction-time flags `_callback` / `_escaped`; `frame`, `data`,
`future` and `queue` are the mutable fields of the source constructor
(lines 57-60).  `future` holds the identifier of the suspended waiter
when a pull request is outstanding.  Delivery history is recorded in
`pushed` (arguments of push-callback invocations), `fulfilled` (waiter
identifier and frame of each fulfilled pull) and `queue` (the backlog).
`errorCallbackCalls` counts invocations of the registered error callback;
`data_received` never invokes it (its except-branch only prints), so no
operation of this file changes the count. -/
structure ChanState where
  callback : Bool
  escaped : Bool
  frame : Option APIFrame
  data : List Nat
  future : Option Nat
  queue : List FrameInfo
  pushed : List FrameInfo
  fulfilled : List (Nat × FrameInfo)
  errorCallbackCalls : Nat
deriving DecidableEq

/-- Driver state right after the constructor ran (source lines 57-60). -/
def initChan (cb esc : Bool) : ChanState :=
  ⟨cb, esc, none, [], none, [], [], [], 0⟩

/-- The delivery dispatch inside `data_received` (source lines 107-114):
push callback first, else an outstanding waiter, else the backlog. -/
def deliver (s : ChanState) (info : FrameInfo) : ChanState :=
  if s.callback then { s with pushed := s.pushed ++ [info] }
  else
    match s.future with
    | some w => { s with fulfilled := s.fulfilled ++ [(w, info)], future := none }
    | none => { s with queue := s.queue ++ [info] }

/-- The byte-feeding loop of `data_received` (source lines 97-100):
`while i < len(self._data) and self._frame.remaining_bytes() > 0`.
Returns the assembler after the loop together with the unconsumed rest of
the buffer (`self._data[i:]`, source line 101). -/
def fillLoop : APIFrame → List Nat → APIFrame × List Nat
  | fs, [] => (fs, [])
  | fs, b :: rest =>
    if fs.remainingBytes = 0 then (fs, b :: rest)
    else fillLoop (fs.fill b) rest

/-- The sequence of bytes that the loop of `data_received` passes to
`fill` (source line 99), i.e. the consumed part of the buffer. -/
def fedBytes : APIFrame → List Nat → List Nat
  | _, [] => []
  | fs, b :: rest =>
    if fs.remainingBytes = 0 then []
    else b :: fedBytes (fs.fill b) rest

/-- The resynchronization scan of `data_received` (source lines 88-92):
index of the first start-marker byte 0x7E, if any. -/
def findStart : List Nat → Option Nat
  | [] => none
  | b :: rest => if b = 0x7E then some 0 else (findStart rest).map (· + 1)

/-- Second half of the completion block (source lines 107-114): once the
split produced `info`, deliver it when the payload is non-empty
(`if self._frame.data:`); a failed split is the swallowed `ValueError`. -/
def handleSplit (s : ChanState) (left payload : List Nat) : Option FrameInfo → ChanState
  | none => { s with frame := none, data := left }
  | some info =>
    if payload.isEmpty then { s with frame := none, data := left }
    else { deliver s info with frame := none, data := left }

/-- First half of the completion block (source lines 104-117): a `parse`
failure is the swallowed `ValueError` of the bad checksum; on success the
payload goes to the split step. -/
def handleParse (s : ChanState) (left : List Nat) : Option (List Nat) → ChanState
  | none => { s with frame := none, data := left }
  | some payload => handleSplit s left payload (splitResponse payload)

/-- The completion block of `data_received` (source lines 103-118): call
`parse`, split the payload, deliver when the payload is non-empty, swallow
`ValueError` (bad checksum, or a split failure), and reset the
frame-in-progress to `none`.  `left` is the residual buffer content. -/
def completeState (s : ChanState) (fs' : APIFrame) (left : List Nat) : ChanState :=
  handleParse s left fs'.parse

/-- Lines 97-118 of the source: run the fill loop on buffer `d`, store the
leftover back into `_data`, and run the completion block when the
assembler needs no more bytes. -/
def processFrame (s : ChanState) (fs : APIFrame) (d : List Nat) : ChanState :=
  if ((fillLoop fs d).1).remainingBytes = 0 then
    completeState s (fillLoop fs d).1 (fillLoop fs d).2
  else { s with frame := some (fillLoop fs d).1, data := (fillLoop fs d).2 }

/-- The `data_received` method (source lines 84-118): append the chunk to
`_data`; when no frame is in progress scan for the start marker (keeping
the whole buffer when none is found, trimming to the marker otherwise and
instantiating a fresh assembler); then feed the buffer to the assembler
and handle completion. -/
def dataReceived (s : ChanState) (chunk : List Nat) : ChanState :=
  match s.frame with
  | some fs => processFrame s fs (s.data ++ chunk)
  | none =>
    match findStart (s.data ++ chunk) with
    | none => { s with data := s.data ++ chunk }
    | some i => processFrame s (APIFrame.init s.escaped) ((s.data ++ chunk).drop i)

/-- The sequence of bytes one `data_received` call feeds to `fill`, the
projection of `dataReceived` onto the loop of source lines 97-100. -/
def dataReceivedFed (s : ChanState) (chunk : List Nat) : List Nat :=
  match s.frame with
  | some fs => fedBytes fs (s.data ++ chunk)
  | none =>
    match findStart (s.data ++ chunk) with
    | none => []
    | some i => fedBytes (APIFrame.init s.escaped) ((s.data ++ chunk).drop i)

/-- The `halt` method (source lines 65-70): its whole body is
`if self._callback: pass`, which changes nothing. -/
def halt (s : ChanState) : ChanState := s

/-- The `wait_read_frame` method (source lines 72-82): pop the oldest
backlog entry when the backlog is non-empty, otherwise install a fresh
future in the waiter slot (overwriting whatever was there) and suspend;
`none` as second component means the caller is left suspended on the new
future. -/
def waitReadFrame (s : ChanState) (wid : Nat) : ChanState × Option FrameInfo :=
  match s.queue with
  | info :: rest => ({ s with queue := rest }, some info)
  | [] => ({ s with future := some wid }, none)

/-- One externally triggered event on the driver: a pull request or a
chunk arriving from the transport. -/
inductive ChanOp where
  | wait (wid : Nat)
  | recv (chunk : List Nat)
deriving DecidableEq

/-- Effect of one event on the driver state. -/
def stepOp (s : ChanState) : ChanOp → ChanState
  | ChanOp.wait wid => (waitReadFrame s wid).1
  | ChanOp.recv chunk => dataReceived s chunk

/-- Run a sequence of events from a starting state. -/
def runOps (s : ChanState) (ops : List ChanOp) : ChanState :=
  ops.foldl stepOp s

/-- The spec section 3 invariant: "waiter token and non-empty backlog are
mutually exclusive". -/
def waiterBacklogExcl (s : ChanState) : Prop :=
  s.future.isSome → s.queue = []

/-- Total number of frames ever handed to a consumer side: push-callback
invocations, fulfilled waiters, and backlog entries. -/
def deliveredCount (s : ChanState) : Nat :=
  s.pushed.length + s.fulfilled.length + s.queue.length

/-- Reserved byte values of the escaped transmission mode (spec section
6: "the start marker and three control values"). -/
def isReserved (b : Nat) : Bool :=
  b == 0x7E || b == 0x7D || b == 0x11 || b == 0x13

/-- Escaped-mode byte stuffing (spec section 6): each reserved value
travels as the escape marker followed by the value XOR 0x20; other bytes
travel verbatim. -/
def escapeStuff : List Nat → List Nat
  | [] => []
  | b :: rest =>
    (if isReserved b then [0x7D, b ^^^ 0x20] else [b]) ++ escapeStuff rest

/-- Frame content after the start marker: big-endian length field,
payload, checksum (spec section 6 wire format). -/
def frameBody (payload : List Nat) : List Nat :=
  payload.length / 256 :: payload.length % 256 :: (payload ++ [checksum payload])

/-- Wire bytes of a valid frame carrying `payload`: start marker, then
the frame content, byte-stuffed in escaped mode (the start marker itself
is never escaped, spec section 4.1). -/
def encode (esc : Bool) (payload : List Nat) : List Nat :=
  0x7E :: (if esc then escapeStuff (frameBody payload) else frameBody payload)

/-- Folding the fill loop over a byte list without the remaining-bytes
guard; used to describe mid-frame assembler states. -/
def foldFill (fs : APIFrame) (bs : List Nat) : APIFrame :=
  bs.foldl APIFrame.fill fs

/-- Statement that an assembler consumes exactly this byte list: it still
needs bytes before every byte of the list and needs none at the end. -/
def consumes : APIFrame → List Nat → Prop
  | fs, [] => fs.remainingBytes = 0
  | fs, b :: rest => 0 < fs.remainingBytes ∧ consumes (fs.fill b) rest

/-- Driver state in the middle of assembling: after consuming the wire
bytes `done` of a frame whose start marker was the first byte fed. -/
def midSt (s0 : ChanState) (done : List Nat) : ChanState :=
  if done = [] then s0
  else { s0 with frame := some (foldFill (APIFrame.init s0.escaped) done), data := [] }

theorem dataReceived_frame_some (s : ChanState) (fs : APIFrame) (c : List Nat)
    (hf : s.frame = some fs) :
    dataReceived s c = processFrame s fs (s.data ++ c) := by
  unfold dataReceived
  rw [hf]

theorem dataReceived_no_frame_no_start (s : ChanState) (c : List Nat)
    (hf : s.frame = none) (hi : findStart (s.data ++ c) = none) :
    dataReceived s c = { s with data := s.data ++ c } := by
  unfold dataReceived
  rw [hf, hi]

theorem dataReceived_no_frame_start (s : ChanState) (c : List Nat) (i : Nat)
    (hf : s.frame = none) (hi : findStart (s.data ++ c) = some i) :
    dataReceived s c = processFrame s (APIFrame.init s.escaped) ((s.data ++ c).drop i) := by
  unfold dataReceived
  rw [hf, hi]

theorem completeState_parse_none (s : ChanState) (fs' : APIFrame) (left : List Nat)
    (hp : fs'.parse = none) :
    completeState s fs' left = { s with frame := none, data := left } := by
  simp [completeState, hp, handleParse]

theorem completeState_split_none (s : ChanState) (fs' : APIFrame) (left payload : List Nat)
    (hp : fs'.parse = some payload) (hs : splitResponse payload = none) :
    completeState s fs' left = { s with frame := none, data := left } := by
  simp [completeState, hp, handleParse, hs, handleSplit]

theorem splitResponse_isEmpty_false (payload : List Nat) (info : FrameInfo)
    (h : splitResponse payload = some info) : payload.isEmpty = false := by
  cases payload with
  | nil => simp [splitResponse] at h
  | cons b rest => rfl

theorem completeState_some (s : ChanState) (fs' : APIFrame) (left payload : List Nat)
    (info : FrameInfo) (hp : fs'.parse = some payload)
    (hs : splitResponse payload = some info) :
    completeState s fs' left = { deliver s info with frame := none, data := left } := by
  simp [completeState, hp, handleParse, hs, handleSplit,
    splitResponse_isEmpty_false payload info hs]

theorem processFrame_done (s : ChanState) (fs : APIFrame) (d : List Nat)
    (h : ((fillLoop fs d).1).remainingBytes = 0) :
    processFrame s fs d = completeState s (fillLoop fs d).1 (fillLoop fs d).2 := by
  unfold processFrame
  rw [if_pos h]

theorem processFrame_more (s : ChanState) (fs : APIFrame) (d : List Nat)
    (h : ¬ ((fillLoop fs d).1).remainingBytes = 0) :
    processFrame s fs d
      = { s with frame := some (fillLoop fs d).1, data := (fillLoop fs d).2 } := by
  unfold processFrame
  rw [if_neg h]

theorem deliver_deliveredCount (s : ChanState) (info : FrameInfo) :
    deliveredCount (deliver s info) = deliveredCount s + 1 := by
  rcases s with ⟨cb, esc, fr, da, fu, qu, pu, ful, er⟩
  cases cb <;> cases fu <;> simp [deliver, deliveredCount] <;> omega

theorem completeState_deliveredCount (s : ChanState) (fs' : APIFrame) (left : List Nat) :
    deliveredCount (completeState s fs' left) ≤ deliveredCount s + 1 := by
  cases hp : fs'.parse with
  | none =>
    rw [completeState_parse_none s fs' left hp]
    exact Nat.le_succ (deliveredCount s)
  | some payload =>
    cases hs : splitResponse payload with
    | none =>
      rw [completeState_split_none s fs' left payload hp hs]
      exact Nat.le_succ (deliveredCount s)
    | some info =>
      rw [completeState_some s fs' left payload info hp hs]
      have hkeep : deliveredCount { deliver s info with frame := none, data := left }
          = deliveredCount (deliver s info) := rfl
      rw [hkeep, deliver_deliveredCount]

theorem processFrame_deliveredCount (s : ChanState) (fs : APIFrame) (d : List Nat) :
    deliveredCount (processFrame s fs d) ≤ deliveredCount s + 1 := by
  by_cases h : ((fillLoop fs d).1).remainingBytes = 0
  · rw [processFrame_done s fs d h]
    exact completeState_deliveredCount s (fillLoop fs d).1 (fillLoop fs d).2
  · rw [processFrame_more s fs d h]
    exact Nat.le_succ (deliveredCount s)

/-- C9: every single invocation of `data_received` delivers at most one
frame: the total number of frames handed to any consumer path (push
callback, fulfilled waiter, backlog) grows by at most one per call, no
matter how many complete frames the residual buffer and the new chunk
contain; the remaining buffered bytes wait for the next invocation. -/
theorem C9_at_most_one_frame_per_call (s : ChanState) (chunk : List Nat) :
    deliveredCount (dataReceived s chunk) ≤ deliveredCount s + 1 := by
  cases hf : s.frame with
  | some fs =>
    rw [dataReceived_frame_some s fs chunk hf]
    exact processFrame_deliveredCount s fs (s.data ++ chunk)
  | none =>
    cases hi : findStart (s.data ++ chunk) with
    | none =>
      rw [dataReceived_no_frame_no_start s chunk hf hi]
      exact Nat.le_succ (deliveredCount s)
    | some i =>
      rw [dataReceived_no_frame_start s chunk i hf hi]
      exact processFrame_deliveredCount s (APIFrame.init s.escaped) ((s.data ++ chunk).drop i)

theorem deliver_excl (s : ChanState) (info : FrameInfo) (h : waiterBacklogExcl s) :
    waiterBacklogExcl (deliver s info) := by
  rcases s with ⟨cb, esc, fr, da, fu, qu, pu, ful, er⟩
  cases cb <;> cases fu <;> simp_all [deliver, waiterBacklogExcl]

theorem completeState_excl (s : ChanState) (fs' : APIFrame) (left : List Nat)
    (h : waiterBacklogExcl s) : waiterBacklogExcl (completeState s fs' left) := by
  cases hp : fs'.parse with
  | none =>
    rw [completeState_parse_none s fs' left hp]
    exact h
  | some payload =>
    cases hs : splitResponse payload with
    | none =>
      rw [completeState_split_none s fs' left payload hp hs]
      exact h
    | some info =>
      rw [completeState_some s fs' left payload info hp hs]
      exact deliver_excl s info h

theorem processFrame_excl (s : ChanState) (fs : APIFrame) (d : List Nat)
    (h : waiterBacklogExcl s) : waiterBacklogExcl (processFrame s fs d) := by
  by_cases hr : ((fillLoop fs d).1).remainingBytes = 0
  · rw [processFrame_done s fs d hr]
    exact completeState_excl s (fillLoop fs d).1 (fillLoop fs d).2 h
  · rw [processFrame_more s fs d hr]
    exact h

theorem dataReceived_excl (s : ChanState) (chunk : List Nat)
    (h : waiterBacklogExcl s) : waiterBacklogExcl (dataReceived s chunk) := by
  cases hf : s.frame with
  | some fs =>
    rw [dataReceived_frame_some s fs chunk hf]
    exact processFrame_excl s fs (s.data ++ chunk) h
  | none =>
    cases hi : findStart (s.data ++ chunk) with
    | none =>
      rw [dataReceived_no_frame_no_start s chunk hf hi]
      exact h
    | some i =>
      rw [dataReceived_no_frame_start s chunk i hf hi]
      exact processFrame_excl s (APIFrame.init s.escaped) ((s.data ++ chunk).drop i) h

theorem waitReadFrame_excl (s : ChanState) (wid : Nat)
    (h : waiterBacklogExcl s) : waiterBacklogExcl ((waitReadFrame s wid).1) := by
  unfold waitReadFrame
  cases hq : s.queue with
  | nil => intro _; rfl
  | cons info rest =>
    intro hfut
    have hnil : s.queue = [] := h (by simpa using hfut)
    rw [hq] at hnil
    exact absurd hnil (by simp)

theorem stepOp_excl (s : ChanState) (op : ChanOp)
    (h : waiterBacklogExcl s) : waiterBacklogExcl (stepOp s op) := by
  cases op with
  | wait wid => exact waitReadFrame_excl s wid h
  | recv chunk => exact dataReceived_excl s chunk h

theorem runOps_excl (ops : List ChanOp) :
    ∀ s : ChanState, waiterBacklogExcl s → waiterBacklogExcl (runOps s ops) := by
  induction ops with
  | nil => intro s h; exact h
  | cons op rest ih =>
    intro s h
    exact ih (stepOp s op) (stepOp_excl s op h)

/-- C4: in every state reachable from the freshly constructed driver by
any interleaving of `wait_read_frame` calls and `data_received` chunks,
a pending pull waiter and a non-empty backlog never coexist: the waiter
slot is occupied only while the backlog queue is empty. -/
theorem C4_waiter_backlog_exclusive (cb esc : Bool) (ops : List ChanOp) :
    waiterBacklogExcl (runOps (initChan cb esc) ops) :=
  runOps_excl ops (initChan cb esc) (fun _ => rfl)

/-- Closed instance of `C4_waiter_backlog_exclusive` on a concrete run:
a pull, a frame, another frame, another pull. -/
theorem C4_waiter_backlog_exclusive_run :
    waiterBacklogExcl (runOps (initChan false false)
      [ChanOp.wait 0, ChanOp.recv [0x7E, 0x00, 0x02, 0x23, 0x41, 0x9B],
       ChanOp.recv [0x7E, 0x00, 0x02, 0x23, 0x41, 0x9B], ChanOp.wait 1]) :=
  C4_waiter_backlog_exclusive false false
    [ChanOp.wait 0, ChanOp.recv [0x7E, 0x00, 0x02, 0x23, 0x41, 0x9B],
     ChanOp.recv [0x7E, 0x00, 0x02, 0x23, 0x41, 0x9B], ChanOp.wait 1]

/-- C1: evaluation at the failing input.  A single chunk holding three
complete valid wire frames (payload `23 41` each), fed to the fresh
driver in pull mode, queues only the first frame; the other two frames'
twelve bytes sit unprocessed in the residual buffer, so three
`wait_read_frame` calls cannot receive three frames after this single
delivery. -/
theorem C1_three_frames_one_chunk_only_first_queued :
    (dataReceived (initChan false false)
        ([0x7E, 0x00, 0x02, 0x23, 0x41, 0x9B] ++ [0x7E, 0x00, 0x02, 0x23, 0x41, 0x9B]
          ++ [0x7E, 0x00, 0x02, 0x23, 0x41, 0x9B])).queue = [⟨0x23, [0x41]⟩] ∧
    (dataReceived (initChan false false)
        ([0x7E, 0x00, 0x02, 0x23, 0x41, 0x9B] ++ [0x7E, 0x00, 0x02, 0x23, 0x41, 0x9B]
          ++ [0x7E, 0x00, 0x02, 0x23, 0x41, 0x9B])).data
      = [0x7E, 0x00, 0x02, 0x23, 0x41, 0x9B] ++ [0x7E, 0x00, 0x02, 0x23, 0x41, 0x9B] := by
  decide

/-- C3: evaluation at the failing input.  With a push callback and error
callback registered, a frame whose checksum byte is wrong (0x00 instead
of 0x9B) leaves the driver state exactly as before: nothing is delivered
to the callback, a waiter or the backlog, the frame-in-progress is reset
to `none`, and the error-callback invocation count stays zero — the
source's except-branch only prints, it never calls the error callback. -/
theorem C3_checksum_failure_resets_without_error_callback :
    dataReceived (initChan true false) [0x7E, 0x00, 0x02, 0x23, 0x41, 0x00]
      = initChan true false ∧
    (dataReceived (initChan true false) [0x7E, 0x00, 0x02, 0x23, 0x41, 0x00]).errorCallbackCalls
      = 0 := by
  decide

/-- C5: evaluation of the code.  The body of `halt` is
`if self._callback: pass`: it is the identity on the driver state, so it
neither releases a suspended waiter with `ChannelHalted` nor makes later
`wait_read_frame` calls fail — contrary to the claim (it is, trivially,
idempotent). -/
theorem C5_halt_is_noop (s : ChanState) : halt s = s := rfl

/-- C6: feeding `7E 00 02 23 41 9B` to the fresh driver in pull mode
delivers exactly one frame, queued as discriminant 0x23 with body
`[0x41]` (payload bytes `23 41`); feeding only the prefix `7E 00 02 23`
delivers nothing anywhere, and the remaining bytes `41 9B` then complete
exactly that one frame. -/
theorem C6_concrete_scenario :
    (dataReceived (initChan false false) [0x7E, 0x00, 0x02, 0x23, 0x41, 0x9B]).queue
        = [⟨0x23, [0x41]⟩] ∧
    (dataReceived (initChan false false) [0x7E, 0x00, 0x02, 0x23, 0x41, 0x9B]).pushed = [] ∧
    (dataReceived (initChan false false) [0x7E, 0x00, 0x02, 0x23, 0x41, 0x9B]).fulfilled = [] ∧
    (dataReceived (initChan false false) [0x7E, 0x00, 0x02, 0x23]).queue = [] ∧
    (dataReceived (initChan false false) [0x7E, 0x00, 0x02, 0x23]).pushed = [] ∧
    (dataReceived (initChan false false) [0x7E, 0x00, 0x02, 0x23]).fulfilled = [] ∧
    (dataReceived (dataReceived (initChan false false) [0x7E, 0x00, 0x02, 0x23])
        [0x41, 0x9B]).queue = [⟨0x23, [0x41]⟩] := by
  decide

/-- C8: evaluation at the failing input.  With the backlog empty, a first
`wait_read_frame` installs waiter 1; a second concurrent call does not
fail — it suspends too (`none`) and silently overwrites the slot with
waiter 2; the next arriving frame then fulfills only waiter 2, so the
first waiter is lost, contrary to the claimed `ConcurrentWaiterError`
and the claimed preservation of the first waiter. -/
theorem C8_second_waiter_silently_overwrites :
    ((waitReadFrame (initChan false false) 1).1).future = some 1 ∧
    (waitReadFrame ((waitReadFrame (initChan false false) 1).1) 2).2 = none ∧
    ((waitReadFrame ((waitReadFrame (initChan false false) 1).1) 2).1).future = some 2 ∧
    (dataReceived ((waitReadFrame ((waitReadFrame (initChan false false) 1).1) 2).1)
        [0x7E, 0x00, 0x02, 0x23, 0x41, 0x9B]).fulfilled = [(2, ⟨0x23, [0x41]⟩)] := by
  decide

/-- C10: a frame that completes and validates with an empty payload
(wire bytes `7E 00 00 FF`) is delivered to no consumer — neither push
callback, nor waiter, nor backlog — and the frame-in-progress is reset to
`none` exactly as after a delivery: the driver state is left unchanged. -/
theorem C10_empty_payload_never_delivered (s : ChanState)
    (hf : s.frame = none) (hd : s.data = []) :
    dataReceived s [0x7E, 0x00, 0x00, 0xFF] = s := by
  have hloop : fillLoop (APIFrame.init s.escaped) [0x7E, 0x00, 0x00, 0xFF]
      = (⟨s.escaped, [0x7E, 0x00, 0x00, 0xFF], false⟩, []) := by
    cases hesc : s.escaped <;> decide
  have hfind : findStart (s.data ++ [0x7E, 0x00, 0x00, 0xFF]) = some 0 := by
    rw [hd]
    decide
  have hrem : ((fillLoop (APIFrame.init s.escaped) [0x7E, 0x00, 0x00, 0xFF]).1).remainingBytes
      = 0 := by
    rw [hloop]
    rfl
  rw [dataReceived_no_frame_start s [0x7E, 0x00, 0x00, 0xFF] 0 hf hfind, hd]
  have hdrop : (([] : List Nat) ++ [0x7E, 0x00, 0x00, 0xFF]).drop 0
      = [0x7E, 0x00, 0x00, 0xFF] := rfl
  rw [hdrop]
  rw [processFrame_done s (APIFrame.init s.escaped) [0x7E, 0x00, 0x00, 0xFF] hrem, hloop]
  have hparse : (⟨s.escaped, [0x7E, 0x00, 0x00, 0xFF], false⟩ : APIFrame).parse
      = some [] := rfl
  rw [completeState_split_none s ⟨s.escaped, [0x7E, 0x00, 0x00, 0xFF], false⟩ [] [] hparse rfl]
  rw [← hf, ← hd]

/-- Closed instance of `C10_empty_payload_never_delivered` on the fresh
push-mode driver. -/
theorem C10_empty_payload_never_delivered_case :
    dataReceived (initChan true false) [0x7E, 0x00, 0x00, 0xFF] = initChan true false :=
  C10_empty_payload_never_delivered (initChan true false) rfl rfl

/-- C7, counterexample: in escaped mode `data_received` (source lines
97-101) feeds the raw buffer bytes to `fill` without any escape decoding
of its own: for the valid escaped frame `7E 00 01 7D 31 EE` (payload
0x11, stuffed as `7D 31`), the byte sequence passed to `fill` contains
the raw escape marker 0x7D itself — yet the frame is still delivered
correctly, because the decoding happens inside `fill`. -/
theorem C7_fill_receives_raw_escape_marker :
    dataReceivedFed (initChan false true) [0x7E, 0x00, 0x01, 0x7D, 0x31, 0xEE]
        = [0x7E, 0x00, 0x01, 0x7D, 0x31, 0xEE] ∧
    0x7D ∈ dataReceivedFed (initChan false true) [0x7E, 0x00, 0x01, 0x7D, 0x31, 0xEE] ∧
    (dataReceived (initChan false true) [0x7E, 0x00, 0x01, 0x7D, 0x31, 0xEE]).queue
        = [⟨0x11, []⟩] := by
  decide

/-- C7 as amended: escape decoding is performed inside the assembler's
`fill`, not by `data_received`: in escaped mode, with no escape pending,
feeding the raw escape marker 0x7D stores nothing and sets the pending
flag in the assembler state (which persists across chunk boundaries),
and feeding the following byte X then stores the single logical byte
X XOR 0x20 and clears the flag. -/
theorem C7_amended_fill_does_escape_decoding (fs : APIFrame) (x : Nat)
    (hesc : fs.escaped = true) (hnx : fs.escapeNext = false) :
    (fs.fill 0x7D).raw_data = fs.raw_data ∧
    (fs.fill 0x7D).escapeNext = true ∧
    ((fs.fill 0x7D).fill x).raw_data = fs.raw_data ++ [x ^^^ 0x20] ∧
    ((fs.fill 0x7D).fill x).escapeNext = false := by
  simp [APIFrame.fill, hesc, hnx]

/-- Closed instance of `C7_amended_fill_does_escape_decoding`: decoding
the stuffed pair `7D 5E` appends the logical byte `5E XOR 20 = 7E`. -/
theorem C7_amended_fill_does_escape_decoding_case :
    ((⟨true, [0x10], false⟩ : APIFrame).fill 0x7D).raw_data = [0x10] ∧
    ((⟨true, [0x10], false⟩ : APIFrame).fill 0x7D).escapeNext = true ∧
    (((⟨true, [0x10], false⟩ : APIFrame).fill 0x7D).fill 0x5E).raw_data
        = [0x10] ++ [0x5E ^^^ 0x20] ∧
    (((⟨true, [0x10], false⟩ : APIFrame).fill 0x7D).fill 0x5E).escapeNext = false :=
  C7_amended_fill_does_escape_decoding ⟨true, [0x10], false⟩ 0x5E rfl rfl

theorem foldFill_nil (fs : APIFrame) : foldFill fs [] = fs := rfl

theorem foldFill_cons (fs : APIFrame) (b : Nat) (bs : List Nat) :
    foldFill fs (b :: bs) = foldFill (fs.fill b) bs := rfl

theorem foldFill_append (fs : APIFrame) (a b : List Nat) :
    foldFill fs (a ++ b) = foldFill (foldFill fs a) b :=
  List.foldl_append APIFrame.fill fs a b

theorem consumes_append (a : List Nat) :
    ∀ (fs : APIFrame) (b2 : List Nat), consumes fs (a ++ b2) →
      fillLoop fs a = (foldFill fs a, []) ∧ consumes (foldFill fs a) b2 := by
  induction a with
  | nil =>
    intro fs b2 h
    exact ⟨rfl, h⟩
  | cons x a1 ih =>
    intro fs b2 h
    rw [List.cons_append] at h
    obtain ⟨hpos, hrest⟩ : 0 < fs.remainingBytes ∧ consumes (fs.fill x) (a1 ++ b2) := h
    have hne : ¬ fs.remainingBytes = 0 := Nat.pos_iff_ne_zero.mp hpos
    have hih := ih (fs.fill x) b2 hrest
    constructor
    · show fillLoop fs (x :: a1) = (foldFill fs (x :: a1), [])
      rw [foldFill_cons]
      simp only [fillLoop, hne, if_false]
      exact hih.1
    · rw [foldFill_cons]
      exact hih.2

theorem remainingBytes_mid (esc nx : Bool) (P pre suf : List Nat)
    (h : frameBody P = pre ++ suf) (hne : suf ≠ []) :
    0 < APIFrame.remainingBytes ⟨esc, 0x7E :: pre, nx⟩ := by
  cases pre with
  | nil => simp [APIFrame.remainingBytes]
  | cons x pre1 =>
    cases pre1 with
    | nil => simp [APIFrame.remainingBytes]
    | cons y pre2 =>
      unfold frameBody at h
      injection h with h1 h'
      injection h' with h2 h3
      have hlen : P.length + 1 = pre2.length + suf.length := by
        have hl := congrArg List.length h3
        simpa using hl
      have hsuf : 0 < suf.length := List.length_pos.mpr hne
      subst h1
      subst h2
      simp only [APIFrame.remainingBytes, declLen, List.getD_cons_succ, List.getD_cons_zero,
        List.length_cons]
      rw [if_neg (by omega)]
      omega

theorem remainingBytes_done (esc nx : Bool) (P : List Nat) :
    APIFrame.remainingBytes ⟨esc, 0x7E :: frameBody P, nx⟩ = 0 := by
  have hlen : (frameBody P).length = P.length + 3 := by
    simp [frameBody]
  unfold frameBody
  simp only [APIFrame.remainingBytes, declLen, List.getD_cons_succ, List.getD_cons_zero,
    List.length_cons]
  rw [if_neg (by simp)]
  have hl2 : (P ++ [checksum P]).length = P.length + 1 := by simp
  rw [hl2]
  omega

theorem consumes_plain (P : List Nat) :
    ∀ (suf pre : List Nat) (nx : Bool), frameBody P = pre ++ suf →
      consumes ⟨false, 0x7E :: pre, nx⟩ suf := by
  intro suf
  induction suf with
  | nil =>
    intro pre nx h
    rw [List.append_nil] at h
    subst h
    show APIFrame.remainingBytes ⟨false, 0x7E :: frameBody P, nx⟩ = 0
    exact remainingBytes_done false nx P
  | cons b rest ih =>
    intro pre nx h
    have hfill : (⟨false, 0x7E :: pre, nx⟩ : APIFrame).fill b
        = ⟨false, 0x7E :: (pre ++ [b]), nx⟩ := by
      simp [APIFrame.fill]
    refine ⟨remainingBytes_mid false nx P pre (b :: rest) h (by simp), ?_⟩
    rw [hfill]
    apply ih (pre ++ [b]) nx
    rw [h, List.append_assoc]
    rfl

theorem not_reserved_ne_escape (b : Nat) (hr : isReserved b = false) : ¬ b = 0x7D := by
  intro hb
  subst hb
  simp [isReserved] at hr

theorem consumes_escaped (P : List Nat) :
    ∀ (suf pre : List Nat), frameBody P = pre ++ suf →
      consumes ⟨true, 0x7E :: pre, false⟩ (escapeStuff suf) := by
  intro suf
  induction suf with
  | nil =>
    intro pre h
    rw [List.append_nil] at h
    subst h
    show APIFrame.remainingBytes ⟨true, 0x7E :: frameBody P, false⟩ = 0
    exact remainingBytes_done true false P
  | cons b rest ih =>
    intro pre h
    cases hr : isReserved b with
    | true =>
      have hst : escapeStuff (b :: rest) = 0x7D :: (b ^^^ 0x20) :: escapeStuff rest := by
        simp [escapeStuff, hr]
      rw [hst]
      have hfill1 : (⟨true, 0x7E :: pre, false⟩ : APIFrame).fill 0x7D
          = ⟨true, 0x7E :: pre, true⟩ := by
        simp [APIFrame.fill]
      have hfill2 : (⟨true, 0x7E :: pre, true⟩ : APIFrame).fill (b ^^^ 0x20)
          = ⟨true, 0x7E :: (pre ++ [b]), false⟩ := by
        simp [APIFrame.fill, Nat.xor_cancel_right]
      refine ⟨remainingBytes_mid true false P pre (b :: rest) h (by simp), ?_⟩
      rw [hfill1]
      refine ⟨remainingBytes_mid true true P pre (b :: rest) h (by simp), ?_⟩
      rw [hfill2]
      apply ih (pre ++ [b])
      rw [h, List.append_assoc]
      rfl
    | false =>
      have hst : escapeStuff (b :: rest) = b :: escapeStuff rest := by
        simp [escapeStuff, hr]
      rw [hst]
      have hfill : (⟨true, 0x7E :: pre, false⟩ : APIFrame).fill b
          = ⟨true, 0x7E :: (pre ++ [b]), false⟩ := by
        simp [APIFrame.fill, not_reserved_ne_escape b hr]
      refine ⟨remainingBytes_mid true false P pre (b :: rest) h (by simp), ?_⟩
      rw [hfill]
      apply ih (pre ++ [b])
      rw [h, List.append_assoc]
      rfl

theorem consumes_encode (esc : Bool) (P : List Nat) :
    consumes (APIFrame.init esc) (encode esc P) := by
  cases esc with
  | false =>
    show consumes ⟨false, [], false⟩ (0x7E :: frameBody P)
    have hfill : (⟨false, [], false⟩ : APIFrame).fill 0x7E = ⟨false, [0x7E], false⟩ := by
      decide
    refine ⟨by decide, ?_⟩
    rw [hfill]
    exact consumes_plain P (frameBody P) [] false rfl
  | true =>
    show consumes ⟨true, [], false⟩ (0x7E :: escapeStuff (frameBody P))
    have hfill : (⟨true, [], false⟩ : APIFrame).fill 0x7E = ⟨true, [0x7E], false⟩ := by
      decide
    refine ⟨by decide, ?_⟩
    rw [hfill]
    exact consumes_escaped P (frameBody P) [] rfl

theorem deliver_frame_data (s : ChanState) (F : Option APIFrame) (D : List Nat)
    (info : FrameInfo) :
    deliver { s with frame := F, data := D } info
      = { deliver s info with frame := F, data := D } := by
  rcases s with ⟨cb, esc, fr, da, fu, qu, pu, ful, er⟩
  cases cb <;> cases fu <;> rfl

theorem handleSplit_frame_data_irrel (s : ChanState) (F : Option APIFrame) (D : List Nat)
    (left payload : List Nat) (o : Option FrameInfo) :
    handleSplit { s with frame := F, data := D } left payload o
      = handleSplit s left payload o := by
  cases o with
  | none => rfl
  | some info =>
    simp only [handleSplit]
    by_cases hp : payload.isEmpty = true
    · rw [if_pos hp, if_pos hp]
    · rw [if_neg hp, if_neg hp, deliver_frame_data]

theorem handleParse_frame_data_irrel (s : ChanState) (F : Option APIFrame) (D : List Nat)
    (left : List Nat) (o : Option (List Nat)) :
    handleParse { s with frame := F, data := D } left o = handleParse s left o := by
  cases o with
  | none => rfl
  | some payload =>
    simp only [handleParse]
    exact handleSplit_frame_data_irrel s F D left payload (splitResponse payload)

theorem completeState_frame_data_irrel (s : ChanState) (F : Option APIFrame) (D : List Nat)
    (fs' : APIFrame) (left : List Nat) :
    completeState { s with frame := F, data := D } fs' left = completeState s fs' left :=
  handleParse_frame_data_irrel s F D left fs'.parse

theorem handleSplit_fields (s : ChanState) (left payload : List Nat) (o : Option FrameInfo) :
    (handleSplit s left payload o).frame = none ∧ (handleSplit s left payload o).data = left := by
  cases o with
  | none => exact ⟨rfl, rfl⟩
  | some info =>
    simp only [handleSplit]
    by_cases hp : payload.isEmpty = true
    · rw [if_pos hp]
      exact ⟨rfl, rfl⟩
    · rw [if_neg hp]
      exact ⟨rfl, rfl⟩

theorem completeState_fields (s : ChanState) (fs' : APIFrame) (left : List Nat) :
    (completeState s fs' left).frame = none ∧ (completeState s fs' left).data = left := by
  show (handleParse s left fs'.parse).frame = none ∧ (handleParse s left fs'.parse).data = left
  cases fs'.parse with
  | none => exact ⟨rfl, rfl⟩
  | some payload => exact handleSplit_fields s left payload (splitResponse payload)

theorem dataReceived_nil_clean (s : ChanState) (hf : s.frame = none) (hd : s.data = []) :
    dataReceived s [] = s := by
  have hfind : findStart (s.data ++ []) = none := by
    rw [hd]
    rfl
  rw [dataReceived_no_frame_no_start s [] hf hfind]
  have hda : s.data ++ [] = s.data := List.append_nil s.data
  rw [hda]

theorem midSt_nil (s0 : ChanState) : midSt s0 [] = s0 := by
  unfold midSt
  rw [if_pos rfl]

theorem midSt_cons (s0 : ChanState) (done : List Nat) (h : done ≠ []) :
    midSt s0 done
      = { s0 with frame := some (foldFill (APIFrame.init s0.escaped) done), data := [] } := by
  unfold midSt
  rw [if_neg h]

theorem dataReceived_whole (s0 : ChanState) (P : List Nat)
    (hf : s0.frame = none) (hd : s0.data = []) :
    dataReceived s0 (encode s0.escaped P)
      = completeState s0 (foldFill (APIFrame.init s0.escaped) (encode s0.escaped P)) [] := by
  have hcons := consumes_encode s0.escaped P
  have hca := consumes_append (encode s0.escaped P) (APIFrame.init s0.escaped) []
    (by rw [List.append_nil]; exact hcons)
  have hrem : ((fillLoop (APIFrame.init s0.escaped) (encode s0.escaped P)).1).remainingBytes
      = 0 := by
    rw [hca.1]
    exact hca.2
  have hfind : findStart (s0.data ++ encode s0.escaped P) = some 0 := by
    rw [hd]
    show findStart (encode s0.escaped P) = some 0
    unfold encode
    simp [findStart]
  rw [dataReceived_no_frame_start s0 (encode s0.escaped P) 0 hf hfind, hd]
  have hdrop : (([] : List Nat) ++ encode s0.escaped P).drop 0 = encode s0.escaped P := by
    simp
  rw [hdrop]
  rw [processFrame_done s0 (APIFrame.init s0.escaped) (encode s0.escaped P) hrem]
  rw [hca.1]

theorem dataReceived_mid_step (s0 : ChanState) (P : List Nat) (done c todo : List Nat)
    (hf : s0.frame = none) (hd : s0.data = [])
    (hw : done ++ c ++ todo = encode s0.escaped P)
    (htodo : todo ≠ []) :
    dataReceived (midSt s0 done) c = midSt s0 (done ++ c) := by
  have hcons := consumes_encode s0.escaped P
  rw [← hw] at hcons
  have hcons2 : consumes (APIFrame.init s0.escaped) (done ++ (c ++ todo)) := by
    rw [← List.append_assoc]
    exact hcons
  have hdone := consumes_append done (APIFrame.init s0.escaped) (c ++ todo) hcons2
  have hc := consumes_append c (foldFill (APIFrame.init s0.escaped) done) todo hdone.2
  obtain ⟨t, ts, rfl⟩ : ∃ t ts, todo = t :: ts := by
    cases todo with
    | nil => exact absurd rfl htodo
    | cons t ts => exact ⟨t, ts, rfl⟩
  obtain ⟨hpos, hrest2⟩ :
      0 < ((foldFill (foldFill (APIFrame.init s0.escaped) done) c)).remainingBytes
        ∧ consumes ((foldFill (foldFill (APIFrame.init s0.escaped) done) c).fill t) ts := hc.2
  have hnrem :
      ¬ ((fillLoop (foldFill (APIFrame.init s0.escaped) done) c).1).remainingBytes = 0 := by
    rw [hc.1]
    exact Nat.pos_iff_ne_zero.mp hpos
  by_cases hdn : done = []
  · subst hdn
    rw [midSt_nil]
    rw [foldFill_nil] at hnrem hc
    by_cases hcn : c = []
    · subst hcn
      rw [dataReceived_nil_clean s0 hf hd, List.nil_append, midSt_nil]
    · obtain ⟨c1, rfl⟩ : ∃ c1, c = 0x7E :: c1 := by
        cases c with
        | nil => exact absurd rfl hcn
        | cons x c1 =>
          refine ⟨c1, ?_⟩
          have hw2 : x :: (c1 ++ (t :: ts)) = encode s0.escaped P := by
            simpa using hw
          unfold encode at hw2
          injection hw2 with h1 _
          rw [h1]
      have hfind : findStart (s0.data ++ (0x7E :: c1)) = some 0 := by
        rw [hd]
        simp [findStart]
      rw [dataReceived_no_frame_start s0 (0x7E :: c1) 0 hf hfind, hd]
      have hdrop : (([] : List Nat) ++ (0x7E :: c1)).drop 0 = 0x7E :: c1 := by
        simp
      rw [hdrop]
      rw [processFrame_more s0 (APIFrame.init s0.escaped) (0x7E :: c1) hnrem]
      rw [hc.1]
      rw [midSt_cons s0 ([] ++ (0x7E :: c1)) (by simp)]
      rfl
  · have hfr : (midSt s0 done).frame = some (foldFill (APIFrame.init s0.escaped) done) := by
      rw [midSt_cons s0 done hdn]
    have hdata : (midSt s0 done).data ++ c = c := by
      rw [midSt_cons s0 done hdn]
      rfl
    rw [dataReceived_frame_some (midSt s0 done) _ c hfr]
    rw [hdata]
    rw [processFrame_more (midSt s0 done) _ c hnrem]
    rw [hc.1]
    rw [midSt_cons s0 done hdn]
    rw [midSt_cons s0 (done ++ c)
      (by intro hcc; exact hdn (List.append_eq_nil.mp hcc).1)]
    rw [foldFill_append]

theorem dataReceived_final_step (s0 : ChanState) (P : List Nat) (done c : List Nat)
    (hf : s0.frame = none) (hd : s0.data = [])
    (hw : done ++ c = encode s0.escaped P) (hc : c ≠ []) :
    dataReceived (midSt s0 done) c = dataReceived s0 (encode s0.escaped P) := by
  by_cases hdn : done = []
  · subst hdn
    rw [midSt_nil]
    have hcw : c = encode s0.escaped P := by
      simpa using hw
    rw [hcw]
  · have hcons := consumes_encode s0.escaped P
    rw [← hw] at hcons
    have hdone := consumes_append done (APIFrame.init s0.escaped) c hcons
    have hcc : consumes (foldFill (APIFrame.init s0.escaped) done) (c ++ []) := by
      rw [List.append_nil]
      exact hdone.2
    have hcl := consumes_append c (foldFill (APIFrame.init s0.escaped) done) [] hcc
    have hrem :
        ((fillLoop (foldFill (APIFrame.init s0.escaped) done) c).1).remainingBytes = 0 := by
      rw [hcl.1]
      exact hcl.2
    have hfr : (midSt s0 done).frame = some (foldFill (APIFrame.init s0.escaped) done) := by
      rw [midSt_cons s0 done hdn]
    have hdata : (midSt s0 done).data ++ c = c := by
      rw [midSt_cons s0 done hdn]
      rfl
    rw [dataReceived_frame_some (midSt s0 done) _ c hfr]
    rw [hdata]
    rw [processFrame_done (midSt s0 done) _ c hrem]
    rw [hcl.1]
    rw [midSt_cons s0 done hdn]
    rw [completeState_frame_data_irrel]
    rw [← foldFill_append, hw]
    exact (dataReceived_whole s0 P hf hd).symm

theorem foldl_empty_chunks : ∀ (chunks : List (List Nat)), (∀ c ∈ chunks, c = []) →
    ∀ s : ChanState, s.frame = none → s.data = [] →
      List.foldl dataReceived s chunks = s := by
  intro chunks
  induction chunks with
  | nil =>
    intro _ s _ _
    rfl
  | cons c rest ih =>
    intro hall s hf hd
    have hc : c = [] := hall c (List.mem_cons_self c rest)
    subst hc
    rw [List.foldl_cons, dataReceived_nil_clean s hf hd]
    exact ih (fun x hx => hall x (List.mem_cons_of_mem [] hx)) s hf hd

theorem foldChunks (s0 : ChanState) (P : List Nat) (hf : s0.frame = none) (hd : s0.data = []) :
    ∀ (chunks : List (List Nat)) (done : List Nat),
      done ++ chunks.flatten = encode s0.escaped P →
      chunks.flatten ≠ [] →
      List.foldl dataReceived (midSt s0 done) chunks
        = dataReceived s0 (encode s0.escaped P) := by
  intro chunks
  induction chunks with
  | nil =>
    intro done hjoin hne
    exact absurd rfl hne
  | cons c rest ih =>
    intro done hjoin hne
    rw [List.flatten_cons] at hjoin
    rw [List.foldl_cons]
    by_cases hrest : rest.flatten = []
    · have hwc : done ++ c = encode s0.escaped P := by
        rw [hrest, List.append_nil] at hjoin
        exact hjoin
      have hcne : c ≠ [] := by
        intro hc0
        apply hne
        rw [List.flatten_cons, hc0, hrest]
        rfl
      rw [dataReceived_final_step s0 P done c hf hd hwc hcne]
      have hwhole := dataReceived_whole s0 P hf hd
      have hfields := completeState_fields s0
        (foldFill (APIFrame.init s0.escaped) (encode s0.escaped P)) []
      apply foldl_empty_chunks rest (List.flatten_eq_nil_iff.mp hrest)
      · rw [hwhole]
        exact hfields.1
      · rw [hwhole]
        exact hfields.2
    · have hw : (done ++ c) ++ rest.flatten = encode s0.escaped P := by
        rw [List.append_assoc]
        exact hjoin
      rw [dataReceived_mid_step s0 P done c rest.flatten hf hd hw hrest]
      exact ih (done ++ c) hw hrest

/-- C2: a valid wire frame (any payload of bytes, either transmission
mode), split at every possible byte boundary into two or more chunks —
including splits inside the length field, at the checksum byte, or inside
an escape pair — and fed to `data_received` chunk by chunk, leaves the
driver in exactly the state that feeding the whole frame in one chunk
produces: the same single frame is delivered along the same path (push
callback, waiter, or backlog), with the same assembler reset. -/
theorem C2_split_reassembly (esc : Bool) (P : List Nat) (chunks : List (List Nat))
    (s0 : ChanState)
    (hbytes : ∀ b ∈ P, b < 256) (hlen : P.length < 65536)
    (hesc : s0.escaped = esc) (hf : s0.frame = none) (hd : s0.data = [])
    (hjoin : chunks.flatten = encode esc P) (hn : 2 ≤ chunks.length) :
    List.foldl dataReceived s0 chunks = dataReceived s0 (encode esc P) := by
  subst hesc
  have hmain := foldChunks s0 P hf hd chunks []
    (by simpa using hjoin)
    (by
      rw [hjoin]
      simp [encode])
  rw [midSt_nil] at hmain
  exact hmain

/-- Closed instance of `C2_split_reassembly`: the frame `7E 00 02 23 41 9B`
split after the second byte, against the whole frame. -/
theorem C2_split_reassembly_run :
    List.foldl dataReceived (initChan false false) [[0x7E, 0x00], [0x02, 0x23, 0x41, 0x9B]]
      = dataReceived (initChan false false) (encode false [0x23, 0x41]) :=
  C2_split_reassembly false [0x23, 0x41] [[0x7E, 0x00], [0x02, 0x23, 0x41, 0x9B]]
    (initChan false false) (by decide) (by decide) rfl rfl rfl (by decide) (by decide)

end XBee
